import Mathlib

/-
Verification development for the CarDealerInventoryManagement repository.

Shallow embedding of the simulation core:
  - src/models/CarDealerModel.py  (CarDealerInventoryModel: exog_info_fn,
    transition_fn, objective_fn, is_valid_decision)
  - src/models/policy.py          (CarDealerPolicy: basic_order_up_to_policy,
    run_policy step body)
  - src/models/policy_util.py     (basic_order_up_to_policy_util)
  - src/models/BaseClasses/SDPPolicy.py (SDPPolicy.get_decision)

Per-car Python dicts whose key set is the fixed tracked fleet (the data-model
invariant: all per-car mappings share the identical key set) are embedded as
total functions `String → _` together with the model's `fleet : List String`;
dicts that the source builds incrementally inside a loop are embedded as
association lists.  Python floats are embedded as ℚ, Python ints as ℤ.
-/

namespace CarDealer

/-- Python `int(x)` truncation toward zero on a rational. -/
def pyInt (q : ℚ) : ℤ := if q < 0 then ⌈q⌉ else ⌊q⌋

/-- Python 3 `round(x)` (banker's rounding: ties go to the even integer). -/
def pyRound (q : ℚ) : ℤ :=
  if q - (⌊q⌋ : ℚ) < 1/2 then ⌊q⌋
  else if 1/2 < q - (⌊q⌋ : ℚ) then ⌊q⌋ + 1
  else if ⌊q⌋ % 2 = 0 then ⌊q⌋ else ⌊q⌋ + 1

/-- Lookup in an association list (first match), as Python `d[k]` / `k in d`. -/
def alookup {α : Type} : List (String × α) → String → Option α
  | [], _ => none
  | p :: rest, k => if p.1 = k then some p.2 else alookup rest k

/-- Python dict assignment `d[k] = v`: overwrite the key when present
(dict keys are unique, so overwriting the first occurrence), else append. -/
def ainsert {α : Type} : List (String × α) → String → α → List (String × α)
  | [], k, v => [(k, v)]
  | p :: rest, k, v =>
      if p.1 = k then (k, v) :: rest else p :: ainsert rest k v

/-- State namedtuple of src/models/CarDealerModel.py (per-car dicts embedded as
total functions on the fixed fleet; `trend_eta_params` is a constant carried
unchanged by the source and is omitted). -/
structure State where
  inventory_level : String → ℤ
  holding_time : String → ℤ
  competitor_price : String → ℚ
  market_trends : String → String
  market_trends_lag1 : String → String
  market_trends_lag2 : String → String
  demand_forecast : String → ℚ

/-- Decision namedtuple (restock/price/discount dicts over the fleet). -/
structure Decision where
  restock : String → ℚ
  price : String → ℚ
  discount : String → ℚ

/-- Exogenous information dict returned by exog_info_fn, as consumed by
transition_fn and objective_fn. -/
structure ExogInfo where
  demand : String → ℚ
  competitor_prices : String → ℚ
  market_trends : String → String

/-- One row of the market-trends table for a given (month, car model):
the columns read by exog_info_fn. -/
structure TrendRow where
  demand_index : ℚ
  price_trend : ℚ
  competitor_activity : ℚ
  season : String

/-- CarDealerInventoryModel: configuration, current state, time index and
objective accumulator.  `market_trends_df` embeds the optional pandas
dataframe as a query function (month index, car model) ↦ row, `none` when the
model was constructed with `market_trends_file=None`. -/
structure Model where
  fleet : List String
  T : ℕ
  t : ℕ
  holding_cost : ℚ
  base_profit : ℚ
  discount_rate : ℚ
  max_inventory : ℤ
  alpha : ℚ
  variance_demand : String → ℕ
  seasonal_holding_cost : String → Option ℚ
  market_trends_df : Option (ℕ → String → Option TrendRow)
  state : State
  objective : ℚ

/-- Default `seasonal_holding_cost = {"winter": 90, "summer": 70}` from
CarDealerInventoryModel.__init__. -/
def default_seasonal_holding_cost (s : String) : Option ℚ :=
  if s = "winter" then some 90 else if s = "summer" then some 70 else none

/-- Result of transition_fn: the new State fields plus the diagnostic
`cars_sold` / `cars_added` entries of the returned dict. -/
structure TransitionResult where
  state : State
  cars_sold : String → ℤ
  cars_added : String → ℤ

/-- transition_fn of CarDealerModel.py.  Per car:
`demand = int(round(exog_info.get("demand", {}).get(car, 0)))`,
`cars_sold = min(demand, inventory_level)`, `cars_added = int(restock)`,
`new_inventory = max(0, inventory_level + cars_added - cars_sold)`,
`new_holding_time = holding_time + 1 if new_inventory > 0 else 0`;
trend lags shift; `new_demand_forecast = max(0, demand * (1 + 0.1 * t))`. -/
def transition_fn (m : Model) (d : Decision) (e : ExogInfo) : TransitionResult :=
  let cars_sold : String → ℤ :=
    fun car => min (pyRound (e.demand car)) (m.state.inventory_level car)
  let cars_added : String → ℤ := fun car => pyInt (d.restock car)
  let new_inventory : String → ℤ :=
    fun car => max 0 (m.state.inventory_level car + cars_added car - cars_sold car)
  let new_holding_time : String → ℤ :=
    fun car => if new_inventory car > 0 then m.state.holding_time car + 1 else 0
  let new_demand_forecast : String → ℚ :=
    fun car => max 0 (e.demand car * (1 + (1/10 : ℚ) * (m.t : ℚ)))
  { state :=
      { inventory_level := new_inventory
        holding_time := new_holding_time
        competitor_price := e.competitor_prices
        market_trends := e.market_trends
        market_trends_lag1 := m.state.market_trends
        market_trends_lag2 := m.state.market_trends_lag1
        demand_forecast := new_demand_forecast }
    cars_sold := cars_sold
    cars_added := cars_added }

/-- objective_fn of CarDealerModel.py: step profit =
revenue − (restocking_cost + holding_cost), where
`revenue = Σ min(inventory, demand) * price`,
`restocking_cost = Σ restock * 300`,
`unsold = inventory − min(inventory, int(demand))`,
`holding_cost = Σ unsold * holding_time *
  seasonal_holding_cost.get(exog_trend.lower(), holding_cost)`.
All sums range over the fleet (the shared key set of the per-car dicts). -/
def objective_fn (m : Model) (d : Decision) (e : ExogInfo) : ℚ :=
  let fixed_cost_per_unit : ℚ := 300
  let revenue : ℚ :=
    (m.fleet.map (fun car =>
      min ((m.state.inventory_level car : ℚ)) (e.demand car) * d.price car)).sum
  let restocking_cost : ℚ :=
    (m.fleet.map (fun car => d.restock car * fixed_cost_per_unit)).sum
  let unsold_inventory : String → ℤ :=
    fun car => m.state.inventory_level car -
      min (m.state.inventory_level car) (pyInt (e.demand car))
  let holding_cost : ℚ :=
    (m.fleet.map (fun car =>
      (unsold_inventory car : ℚ) * (m.state.holding_time car : ℚ) *
        ((m.seasonal_holding_cost (e.market_trends car).toLower).getD
          m.holding_cost))).sum
  revenue - (restocking_cost + holding_cost)

/-- is_valid_decision of CarDealerModel.py: raises `ValueError` when some
restock value is negative, raises when the total post-restock inventory
exceeds `max_inventory`, otherwise returns `True`.  The source reads but never
writes `self.state`, so the embedding is a pure function of the model: the
model's current State is unchanged by the call in every case. -/
def is_valid_decision (m : Model) (d : Decision) : Except String Bool :=
  if m.fleet.any (fun car => decide (d.restock car < 0)) then
    Except.error "Restocking values cannot be negative!"
  else if (m.fleet.map (fun car =>
      (m.state.inventory_level car : ℚ) + d.restock car)).sum >
      (m.max_inventory : ℚ) then
    Except.error "Total inventory exceeds storage capacity!"
  else Except.ok true

/-- One iteration body of CarDealerPolicy.run_policy (src/models/policy.py,
lines 80-86), given the decision produced by the policy function and the
exogenous information of the step: the runner applies `transition_fn`,
installs the new State on the model, and only then calls `objective_fn` —
no call to `is_valid_decision` occurs anywhere in this runner.  Returns the
updated model and the step profit. -/
def runPolicyStep (m : Model) (d : Decision) (e : ExogInfo) : Model × ℚ :=
  let tr := transition_fn m d e
  let m1 : Model := { m with state := tr.state }
  let step_profit := objective_fn m1 d e
  ({ m1 with objective := m1.objective + step_profit }, step_profit)

/-- Raw decision dict returned by a policy before build_decision
normalization: the three per-car dicts as association lists, in the order the
policy's loops build them. -/
structure RawDecision where
  restock : List (String × ℚ)
  price : List (String × ℚ)
  discount : List (String × ℚ)

/-- Winter `theta_min` table hardcoded in SDPPolicy.get_decision
(`{"Car A": 5, "Car B": 10, "Car C": 5}`); a car outside the table raises
`KeyError` in Python, embedded as 0 (claims are evaluated on fleets within
the table). -/
def winter_theta_min (car : String) : ℤ :=
  if car = "Car A" then 5 else if car = "Car B" then 10
  else if car = "Car C" then 5 else 0

/-- Winter `theta_max` table (`{"Car A": 15, "Car B": 20, "Car C": 15}`). -/
def winter_theta_max (car : String) : ℤ :=
  if car = "Car A" then 15 else if car = "Car B" then 20
  else if car = "Car C" then 15 else 0

/-- Summer `theta_min` table (`{"Car A": 10, "Car B": 12, "Car C": 8}`). -/
def summer_theta_min (car : String) : ℤ :=
  if car = "Car A" then 10 else if car = "Car B" then 12
  else if car = "Car C" then 8 else 0

/-- Summer `theta_max` table (`{"Car A": 20, "Car B": 25, "Car C": 20}`). -/
def summer_theta_max (car : String) : ℤ :=
  if car = "Car A" then 20 else if car = "Car B" then 25
  else if car = "Car C" then 20 else 0

/-- Restock loop of SDPPolicy.get_decision: iterate the fleet in order
carrying `available_capacity`; a car strictly below its minimum threshold
gets `min(theta_max[car] - inventory_level[car], available_capacity)` and the
capacity is decremented by that amount, every other car gets 0. -/
def thresholdAlloc (theta_min theta_max inv : String → ℤ) :
    List String → ℤ → List (String × ℤ)
  | [], _ => []
  | car :: rest, cap =>
      if inv car < theta_min car then
        let r := min (theta_max car - inv car) cap
        (car, r) :: thresholdAlloc theta_min theta_max inv rest (cap - r)
      else
        (car, 0) :: thresholdAlloc theta_min theta_max inv rest cap

/-- SDPPolicy.get_decision (src/models/BaseClasses/SDPPolicy.py): seasonal
thresholds chosen by `t % 12` (winter months `[9, 10, 11, 0, 1]`), restock by
`thresholdAlloc` starting from `max_inventory - total_inventory`, price
`competitor_price - (100 if holding_time > 10 else 50)`, discount
`discount_rate if holding_time > 30 else 0`.  The source's trend adjustment
branches compare the dict `state.market_trends` with the strings
`"rising"` / `"declining"`; in Python a dict never equals a string, so both
branches are dead code and the tables are used unadjusted. -/
def get_decision (m : Model) (state : State) (t : ℕ) : RawDecision :=
  let current_month := t % 12
  let is_winter : Bool :=
    decide (current_month = 9 ∨ current_month = 10 ∨ current_month = 11 ∨
      current_month = 0 ∨ current_month = 1)
  let theta_min := if is_winter then winter_theta_min else summer_theta_min
  let theta_max := if is_winter then winter_theta_max else summer_theta_max
  let total_inventory : ℤ :=
    (m.fleet.map (fun car => state.inventory_level car)).sum
  let available_capacity := m.max_inventory - total_inventory
  { restock :=
      (thresholdAlloc theta_min theta_max state.inventory_level m.fleet
        available_capacity).map (fun p => (p.1, (p.2 : ℚ)))
    price :=
      m.fleet.map (fun car =>
        (car, state.competitor_price car -
          (if state.holding_time car > 10 then (100 : ℚ) else 50)))
    discount :=
      m.fleet.map (fun car =>
        (car, if state.holding_time car > 30 then m.discount_rate else 0)) }

/-- Step of the first-come-first-served allocation as the spec's words
describe it (claim C7): the accumulator carries the allocations so far and
the remaining capacity; a car strictly below its minimum threshold takes
`min(theta_max − inventory, remaining capacity)` and the remaining capacity
is decremented, every other car takes 0. -/
def fcfsStep (theta_min theta_max inv : String → ℤ)
    (acc : List (String × ℤ) × ℤ) (car : String) : List (String × ℤ) × ℤ :=
  if inv car < theta_min car then
    (acc.1 ++ [(car, min (theta_max car - inv car) acc.2)],
      acc.2 - min (theta_max car - inv car) acc.2)
  else (acc.1 ++ [(car, 0)], acc.2)

/-- First-come-first-served restock allocation written from the spec's
description, to be compared with the source's `thresholdAlloc` loop:
capacity starts at the given value and is decremented over the cars in their
natural enumeration order. -/
def fcfsRestock (theta_min theta_max inv : String → ℤ) (cars : List String)
    (cap0 : ℤ) : List (String × ℤ) :=
  (cars.foldl (fcfsStep theta_min theta_max inv)
    (([] : List (String × ℤ)), cap0)).1

/-- Trend-adjustment table of CarDealerPolicy.basic_order_up_to_policy:
`{"rising": 1.2, "stable": 1.0, "declining": 0.8}`, read with
`.get(current_trend, 1.0)`. -/
def trend_adjustments (trend : String) : ℚ :=
  if trend = "rising" then 6/5 else if trend = "stable" then 1
  else if trend = "declining" then 4/5 else 1

/-- CarDealerPolicy.basic_order_up_to_policy (src/models/policy.py): per car,
`safety_buffer = int(variance_demand[car] ** 0.5)` (integer square root),
`target_demand = exog_info["demand"][car] + safety_buffer`,
`restock = max(0, min(theta_max[car] - level, trend_factor * target_demand))`,
`price = max(0, competitor_price - 50)`, `discount = 0`.
`theta_min` is accepted but unused by the source. -/
def basic_order_up_to_policy (m : Model) (theta_min theta_max : String → ℤ)
    (e : ExogInfo) : RawDecision :=
  { restock :=
      m.fleet.map (fun car =>
        let level := m.state.inventory_level car
        let current_trend := m.state.market_trends car
        let trend_factor := trend_adjustments current_trend
        let safety_buffer : ℤ := (Nat.sqrt (m.variance_demand car) : ℤ)
        let target_demand : ℚ := e.demand car + (safety_buffer : ℚ)
        (car, max 0 (min ((theta_max car : ℚ) - (level : ℚ))
          (trend_factor * target_demand))))
    price :=
      m.fleet.map (fun car =>
        (car, max 0 (m.state.competitor_price car - 50)))
    discount := m.fleet.map (fun car => (car, (0 : ℚ))) }

/-- basic_order_up_to_policy_util (src/models/policy_util.py): pure helper,
inventory supplied as a dict; per car
`restock = max(0, min(theta_max - level,
  trend_factors[car] * (demand_forecast[car] + int(variance ** 0.5))))`. -/
def basic_order_up_to_policy_util (inventory : List (String × ℤ))
    (theta_min theta_max : String → ℤ) (demand_forecast : String → ℚ)
    (trend_factors : String → ℚ) (variance_demand : String → ℕ) :
    List (String × ℚ) :=
  inventory.map (fun p =>
    let safety_buffer : ℤ := (Nat.sqrt (variance_demand p.1) : ℤ)
    (p.1, max 0 (min ((theta_max p.1 : ℚ) - (p.2 : ℚ))
      (trend_factors p.1 * (demand_forecast p.1 + (safety_buffer : ℚ))))))

/-- Exogenous-information dicts returned by exog_info_fn (built incrementally
by its loop, hence association lists). -/
structure ExogDicts where
  demand : List (String × ℚ)
  competitor_prices : List (String × ℚ)
  market_trends : List (String × String)

/-- Per-car loop of exog_info_fn (`for car in self.state.inventory_level`),
threaded over the three dicts being built.  `rowOf car` is the (possibly
empty) row of `trends_for_month` for the car; `drawTrend i c` is the value of
the normal draw `prng.normal(demand_forecast[c], 10)` and `drawFb i car` the
value of `prng.normal(0, 5)` at loop iteration `i` (the draws are modelled as
arbitrary rationals supplied from outside, since only their use matters to
the claims; the unused draw `prng.normal(0, 0.05)` is omitted).  When the row
is present the source REBINDS the whole `demand` dict to a fresh
comprehension over every car; when it is absent it assigns only
`demand[car]`. -/
def exogFold (fleet : List String) (forecast cp : String → ℚ)
    (rowOf : String → Option TrendRow) (drawTrend drawFb : ℕ → String → ℚ) :
    List String → ℕ →
    List (String × ℚ) × List (String × ℚ) × List (String × String) →
    List (String × ℚ) × List (String × ℚ) × List (String × String)
  | [], _, acc => acc
  | car :: rest, i, (demand, cps, trends) =>
      match rowOf car with
      | some row =>
          exogFold fleet forecast cp rowOf drawTrend drawFb rest (i + 1)
            (fleet.map (fun c => (c, max 0 (drawTrend i c))),
             ainsert cps car
               (max 0 (cp car + row.price_trend - row.competitor_activity)),
             ainsert trends car row.season)
      | none =>
          exogFold fleet forecast cp rowOf drawTrend drawFb rest (i + 1)
            (ainsert demand car (max 0 (forecast car + drawFb i car)),
             ainsert cps car (cp car),
             ainsert trends car "stable")

/-- exog_info_fn of CarDealerModel.py.  When the model was constructed with
`market_trends_file=None`, `self.market_trends_df` is `None` and the very
first statement `self.market_trends_df[...]` raises `TypeError` — embedded as
the error case.  Otherwise the month's rows are selected, the per-car loop
runs, and finally every demand value is capped at
`max_demand.get(car, demand[car])` where `max_demand = 2 * demand_forecast`
per forecast car. -/
def exog_info_fn (m : Model) (drawTrend drawFb : ℕ → String → ℚ) :
    Except String ExogDicts :=
  match m.market_trends_df with
  | none => Except.error "TypeError: NoneType object is not subscriptable"
  | some df =>
      let current_month := m.t % 12 + 1
      let rowOf := df current_month
      let r := exogFold m.fleet m.state.demand_forecast
        m.state.competitor_price rowOf drawTrend drawFb m.fleet 0 ([], [], [])
      let max_demand : List (String × ℚ) :=
        m.fleet.map (fun c => (c, 2 * m.state.demand_forecast c))
      let demand := r.1.map (fun p =>
        (p.1, min p.2 ((alookup max_demand p.1).getD p.2)))
      Except.ok ⟨demand, r.2.1, r.2.2⟩

/-! ### Concrete inputs for witnesses and counterexamples -/

/-- Concrete State with constant per-car values. -/
def constState (inv ht : ℤ) (cp forecast : ℚ) : State :=
  { inventory_level := fun _ => inv
    holding_time := fun _ => ht
    competitor_price := fun _ => cp
    market_trends := fun _ => "stable"
    market_trends_lag1 := fun _ => "stable"
    market_trends_lag2 := fun _ => "stable"
    demand_forecast := fun _ => forecast }

/-- Concrete Model over a given fleet (no trends file, empty seasonal
holding-cost table so every trend falls back to the base holding cost). -/
def mkModel (fleet : List String) (maxInv : ℤ) (s : State) : Model :=
  { fleet := fleet, T := 30, t := 0, holding_cost := 85, base_profit := 1500,
    discount_rate := 1/20, max_inventory := maxInv, alpha := 1/10,
    variance_demand := fun _ => 0,
    seasonal_holding_cost := fun _ => none,
    market_trends_df := none, state := s, objective := 0 }

/-- Concrete Decision with constant per-car values. -/
def constDecision (r p disc : ℚ) : Decision :=
  { restock := fun _ => r, price := fun _ => p, discount := fun _ => disc }

/-- Concrete exogenous information with constant per-car values. -/
def constExog (dem : ℚ) : ExogInfo :=
  { demand := fun _ => dem, competitor_prices := fun _ => 0,
    market_trends := fun _ => "stable" }

/-- Two-car state for the C6 counterexample: Car A at inventory 3 with
competitor price 0, Car B at inventory 100. -/
def c6State : State :=
  { inventory_level := fun car => if car = "Car A" then 3 else 100
    holding_time := fun _ => 0
    competitor_price := fun _ => 0
    market_trends := fun _ => "stable"
    market_trends_lag1 := fun _ => "stable"
    market_trends_lag2 := fun _ => "stable"
    demand_forecast := fun _ => 10 }

/-- Model for the C6 counterexample: two cars, capacity 50 (total inventory
103 already exceeds it). -/
def c6Model : Model := mkModel ["Car A", "Car B"] 50 c6State

/-- Model for the C7 scenario: one Car A at inventory 3, capacity 50,
forecast 4. -/
def c7Model : Model := mkModel ["Car A"] 50 (constState 3 0 0 4)

/-- Concrete market-trends table with no rows, exercising the per-row
fallback path of exog_info_fn. -/
def c9Table : ℕ → String → Option TrendRow := fun _ _ => none

/-- Model for the C9 witness: one Car A with forecast 10 and a present (but
row-less) market-trends table. -/
def c9Model : Model :=
  { mkModel ["Car A"] 100 (constState 5 0 0 10) with
      market_trends_df := some c9Table }

/-- Concrete model for the C1 evidence: one car with inventory 10, holding
time 2, demand forecast 5. -/
def c1Model : Model := mkModel ["Car A"] 100 (constState 10 2 0 5)

/-- Decision for the C1 evidence: no restock, price 100. -/
def c1Decision : Decision := constDecision 0 100 0

/-- Exogenous information for the C1 evidence: realized demand 5. -/
def c1Exog : ExogInfo := constExog 5

/-- Concrete model for the C2 evidence: one car with inventory 10. -/
def c2Model : Model := mkModel ["Car A"] 100 (constState 10 0 0 0)

/-- Invalid decision for the C2 evidence: restock −1. -/
def c2Decision : Decision := constDecision (-1) 0 0

/-- Exogenous information for the C2 evidence: zero demand. -/
def c2Exog : ExogInfo := constExog 0

/-! ### Helper lemmas -/

theorem pyRound_intCast (n : ℤ) : pyRound (n : ℚ) = n := by
  unfold pyRound
  rw [Int.floor_intCast, sub_self]
  norm_num

theorem pyRound_nonneg (q : ℚ) (hq : 0 ≤ q) : 0 ≤ pyRound q := by
  unfold pyRound
  have h0 : (0 : ℤ) ≤ ⌊q⌋ := Int.le_floor.mpr (by exact_mod_cast hq)
  split_ifs <;> omega

theorem pyInt_nonneg (q : ℚ) (hq : 0 ≤ q) : 0 ≤ pyInt q := by
  unfold pyInt
  rw [if_neg (not_lt.mpr hq)]
  exact Int.le_floor.mpr (by exact_mod_cast hq)

theorem pyInt_le_self (q : ℚ) (hq : 0 ≤ q) : (pyInt q : ℚ) ≤ q := by
  unfold pyInt
  rw [if_neg (not_lt.mpr hq)]
  exact Int.floor_le q

theorem pyInt_intCast (n : ℤ) : pyInt (n : ℚ) = n := by
  unfold pyInt
  split_ifs <;> simp

theorem alookup_map_self {β : Type} (h : String → β) (l : List String)
    (c : String) (hc : c ∈ l) :
    alookup (l.map (fun x => (x, h x))) c = some (h c) := by
  induction l with
  | nil => cases hc
  | cons a t ih =>
      simp only [List.map_cons, alookup]
      by_cases hac : a = c
      · subst hac
        rw [if_pos rfl]
      · rw [if_neg hac]
        rcases List.mem_cons.mp hc with h1 | h2
        · exact absurd h1.symm hac
        · exact ih h2

theorem alookup_map_pair {α β : Type} (g : String → α → β)
    (l : List (String × α)) (c : String) :
    alookup (l.map (fun p => (p.1, g p.1 p.2))) c = (alookup l c).map (g c) := by
  induction l with
  | nil => rfl
  | cons p rest ih =>
      by_cases hp : p.1 = c
      · simp only [List.map_cons, alookup]
        rw [hp]
        simp
      · simpa [alookup, hp] using ih

theorem alookup_mem {α : Type} {l : List (String × α)} {c : String} {v : α}
    (h : alookup l c = some v) : (c, v) ∈ l := by
  induction l with
  | nil => simp [alookup] at h
  | cons p rest ih =>
      by_cases hp : p.1 = c
      · simp only [alookup, if_pos hp, Option.some.injEq] at h
        have hpcv : p = (c, v) := by
          cases p with
          | mk a b =>
              simp only at hp h
              rw [hp, h]
        rw [← hpcv]
        exact List.mem_cons_self p rest
      · simp only [alookup, if_neg hp] at h
        exact List.mem_cons_of_mem _ (ih h)

theorem alookup_isSome_of_key_mem {α : Type} (l : List (String × α))
    (c : String) (hc : c ∈ l.map Prod.fst) : (alookup l c).isSome := by
  induction l with
  | nil => simp at hc
  | cons p rest ih =>
      by_cases hp : p.1 = c
      · simp [alookup, hp]
      · rcases List.mem_map.mp hc with ⟨q, hq, hqc⟩
        rcases List.mem_cons.mp hq with h1 | h2
        · exact absurd (h1 ▸ hqc) hp
        · simpa [alookup, hp] using ih (List.mem_map.mpr ⟨q, h2, hqc⟩)

theorem alookup_ainsert_self {α : Type} (l : List (String × α)) (k : String)
    (v : α) : alookup (ainsert l k v) k = some v := by
  induction l with
  | nil =>
      unfold ainsert alookup
      rw [if_pos rfl]
  | cons p rest ih =>
      unfold ainsert
      by_cases hp : p.1 = k
      · rw [if_pos hp]
        unfold alookup
        rw [if_pos rfl]
      · rw [if_neg hp]
        unfold alookup
        rw [if_neg hp]
        exact ih

theorem alookup_ainsert_ne {α : Type} (l : List (String × α)) (k c : String)
    (v : α) (hck : c ≠ k) : alookup (ainsert l k v) c = alookup l c := by
  have hkc : ¬k = c := fun h => hck h.symm
  induction l with
  | nil => simp [ainsert, alookup, hkc]
  | cons p rest ih =>
      by_cases hp : p.1 = k
      · have hpc : ¬p.1 = c := fun h => hck (h.symm.trans hp)
        simp only [ainsert, if_pos hp, alookup, if_neg hkc, if_neg hpc]
      · by_cases hpc : p.1 = c
        · simp only [ainsert, if_neg hp, alookup, if_pos hpc]
        · simp only [ainsert, if_neg hp, alookup, if_neg hpc, ih]

theorem ainsert_values {α : Type} (P : α → Prop) (l : List (String × α))
    (k : String) (v : α) (hl : ∀ p ∈ l, P p.2) (hv : P v) :
    ∀ p ∈ ainsert l k v, P p.2 := by
  induction l with
  | nil =>
      intro p hp
      simp only [ainsert, List.mem_singleton] at hp
      simpa [hp]
  | cons q rest ih =>
      intro p hp
      by_cases hq : q.1 = k
      · simp only [ainsert, if_pos hq, List.mem_cons] at hp
        rcases hp with h1 | h2
        · simpa [h1]
        · exact hl p (List.mem_cons_of_mem _ h2)
      · simp only [ainsert, if_neg hq, List.mem_cons] at hp
        rcases hp with h1 | h2
        · exact h1 ▸ hl q (List.mem_cons_self q rest)
        · exact ih (fun r hr => hl r (List.mem_cons_of_mem _ hr)) p h2

/-! ### C3: validation behaviour of is_valid_decision -/

/-- C3: `is_valid_decision` raises exactly when some restock value is
negative or the total post-restock inventory exceeds `max_inventory`;
otherwise it returns `True`.  The embedding is a pure function of the model
(the source reads but never assigns `self.state`), so the model's current
State is unchanged by the call in every case. -/
theorem C3_is_valid_decision_iff (m : Model) (d : Decision) :
    ((∃ msg, is_valid_decision m d = Except.error msg) ↔
      ((∃ car ∈ m.fleet, d.restock car < 0) ∨
        (m.fleet.map (fun car =>
          (m.state.inventory_level car : ℚ) + d.restock car)).sum >
          (m.max_inventory : ℚ))) ∧
    (¬((∃ car ∈ m.fleet, d.restock car < 0) ∨
        (m.fleet.map (fun car =>
          (m.state.inventory_level car : ℚ) + d.restock car)).sum >
          (m.max_inventory : ℚ)) →
      is_valid_decision m d = Except.ok true) := by
  have hbridge : (m.fleet.any (fun car => decide (d.restock car < 0)) = true) ↔
      (∃ car ∈ m.fleet, d.restock car < 0) := by
    simp [List.any_eq_true]
  unfold is_valid_decision
  split_ifs with h1 h2
  · rw [hbridge] at h1
    exact ⟨⟨fun _ => Or.inl h1, fun _ => ⟨_, rfl⟩⟩,
      fun hc => absurd (Or.inl h1) hc⟩
  · exact ⟨⟨fun _ => Or.inr h2, fun _ => ⟨_, rfl⟩⟩,
      fun hc => absurd (Or.inr h2) hc⟩
  · rw [hbridge] at h1
    exact ⟨⟨fun ⟨msg, hmsg⟩ => absurd hmsg (by simp),
      fun hc => absurd hc (not_or.mpr ⟨h1, h2⟩)⟩, fun _ => rfl⟩

/-- Witness for C3 at a concrete valid decision: one car with inventory 10,
restock 5 against capacity 100 passes both checks and returns `True`. -/
theorem C3_is_valid_decision_iff_witness :
    is_valid_decision (mkModel ["Car A"] 100 (constState 10 0 0 0))
      (constDecision 5 0 0) = Except.ok true :=
  (C3_is_valid_decision_iff _ _).2
    (by norm_num [mkModel, constState, constDecision])

/-! ### C5: transition formulas -/

/-- C5: for every car, transition_fn computes
`cars_sold = min(round(demand), inventory_level)`,
`new_inventory = max(0, inventory_level + restock - cars_sold)` (stated for
an integer restock amount `n`, as the Decision data model requires), and
`new_holding_time = holding_time + 1 if new_inventory > 0 else 0`, so the
holding time resets to zero exactly when the car's new inventory is zero. -/
theorem C5_transition_formulas (m : Model) (d : Decision) (e : ExogInfo)
    (car : String) (n : ℤ) (hres : d.restock car = (n : ℚ)) :
    (transition_fn m d e).cars_sold car =
      min (pyRound (e.demand car)) (m.state.inventory_level car) ∧
    (transition_fn m d e).state.inventory_level car =
      max 0 (m.state.inventory_level car + n -
        min (pyRound (e.demand car)) (m.state.inventory_level car)) ∧
    (transition_fn m d e).state.holding_time car =
      (if (transition_fn m d e).state.inventory_level car > 0 then
        m.state.holding_time car + 1 else 0) := by
  have hpy : pyInt (d.restock car) = n := by rw [hres]; exact pyInt_intCast n
  refine ⟨rfl, ?_, rfl⟩
  show max 0 (m.state.inventory_level car + pyInt (d.restock car) -
      min (pyRound (e.demand car)) (m.state.inventory_level car)) = _
  rw [hpy]

/-- Witness for C5: car with inventory 10 and holding time 2, restock 4,
demand 3 — cars sold is `min(round(3), 10)`. -/
theorem C5_transition_formulas_witness :
    (transition_fn (mkModel ["Car A"] 100 (constState 10 2 0 5))
      (constDecision 4 0 0) (constExog 3)).cars_sold "Car A" =
      min (pyRound ((constExog 3).demand "Car A"))
        ((mkModel ["Car A"] 100 (constState 10 2 0 5)).state.inventory_level
          "Car A") :=
  (C5_transition_formulas _ _ _ "Car A" 4 (by norm_num [constDecision])).1

/-! ### C10: exog_info_fn requires the market-trends table -/

/-- C10: when the model is constructed without a market-trends file
(`market_trends_df` is `None`), every call to exog_info_fn fails — for every
state, time index and random draws — because the source immediately
subscripts the absent dataframe; the stable-trend fallback only applies to
individual missing rows of an existing table. -/
theorem C10_exog_requires_trends (m : Model)
    (hdf : m.market_trends_df = none) (drawTrend drawFb : ℕ → String → ℚ) :
    exog_info_fn m drawTrend drawFb =
      Except.error "TypeError: NoneType object is not subscriptable" := by
  unfold exog_info_fn
  rw [hdf]

/-- Witness for C10: a concrete model built with no trends file. -/
theorem C10_exog_requires_trends_witness :
    exog_info_fn (mkModel ["Car A"] 100 (constState 0 0 0 0))
      (fun _ _ => 0) (fun _ _ => 0) =
      Except.error "TypeError: NoneType object is not subscriptable" :=
  C10_exog_requires_trends _ rfl _ _

/-! ### C1: the runner computes the objective on the post-transition state -/

/-- C1 (code-bug evidence): in CarDealerPolicy.run_policy the state is
replaced by the transition result BEFORE `objective_fn` is called, so the
step objective is computed on the post-transition State, not the
pre-transition State the claim requires.  At this concrete input (inventory
10, holding time 2, demand 5, price 100, no restock) the runner's step
profit equals the post-transition objective 500, while the pre-transition
objective is −350. -/
theorem C1_objective_uses_post_transition_state :
    (runPolicyStep c1Model c1Decision c1Exog).2 =
      objective_fn
        { c1Model with state := (transition_fn c1Model c1Decision c1Exog).state }
        c1Decision c1Exog ∧
    objective_fn
        { c1Model with state := (transition_fn c1Model c1Decision c1Exog).state }
        c1Decision c1Exog = 500 ∧
    objective_fn c1Model c1Decision c1Exog = -350 := by
  refine ⟨rfl, ?_, ?_⟩
  · norm_num [objective_fn, transition_fn, runPolicyStep, c1Model, c1Decision,
      c1Exog, mkModel, constState, constDecision, constExog, pyInt, pyRound,
      min_def, max_def]
  · norm_num [objective_fn, c1Model, c1Decision, c1Exog, mkModel, constState,
      constDecision, constExog, pyInt, min_def, max_def]

/-! ### C2: the runner applies transitions without validating decisions -/

/-- C2 (code-bug evidence): CarDealerPolicy.run_policy never calls
`is_valid_decision`; a decision with restock −1 — which the validator rejects
— is nevertheless applied by the runner and changes the model's state
(inventory 10 becomes 9). -/
theorem C2_runner_applies_unvalidated_decision :
    is_valid_decision c2Model c2Decision =
      Except.error "Restocking values cannot be negative!" ∧
    (runPolicyStep c2Model c2Decision c2Exog).1.state.inventory_level "Car A"
      = 9 ∧
    c2Model.state.inventory_level "Car A" = 10 := by
  refine ⟨?_, ?_, rfl⟩
  · have hc : (c2Model.fleet.any
        (fun car => decide (c2Decision.restock car < 0))) = true := by
      norm_num [c2Model, c2Decision, mkModel, constState, constDecision]
    unfold is_valid_decision
    rw [if_pos hc]
  · have h1 : pyInt ((-1 : ℚ)) = -1 := by
      rw [show ((-1 : ℚ)) = (((-1 : ℤ) : ℚ)) by norm_num]
      exact pyInt_intCast (-1)
    norm_num [runPolicyStep, transition_fn, c2Model, c2Decision, c2Exog,
      mkModel, constState, constDecision, constExog, h1, pyRound,
      min_def, max_def]

/-! ### C4: capacity invariant of accepted transitions -/

/-- C4: for every state with non-negative inventory whose decision passes
validation (is_valid_decision returns True, i.e. restocks are non-negative
and total post-restock inventory is within max_inventory) and every
exogenous information with non-negative demand, the new inventory produced
by transition_fn sums to at most max_inventory over the fleet. -/
theorem C4_capacity_invariant (m : Model) (d : Decision) (e : ExogInfo)
    (hinv : ∀ car ∈ m.fleet, 0 ≤ m.state.inventory_level car)
    (hdem : ∀ car ∈ m.fleet, 0 ≤ e.demand car)
    (hvalid : is_valid_decision m d = Except.ok true) :
    (m.fleet.map (fun car =>
      (transition_fn m d e).state.inventory_level car)).sum ≤
      m.max_inventory := by
  have hbridge : (m.fleet.any (fun car => decide (d.restock car < 0)) = true) ↔
      (∃ car ∈ m.fleet, d.restock car < 0) := by
    simp [List.any_eq_true]
  have hneg : ¬(m.fleet.any (fun car => decide (d.restock car < 0)) = true) := by
    intro h
    unfold is_valid_decision at hvalid
    rw [if_pos h] at hvalid
    exact absurd hvalid (by simp)
  have h2 : ¬((m.fleet.map (fun car =>
      (m.state.inventory_level car : ℚ) + d.restock car)).sum >
      (m.max_inventory : ℚ)) := by
    intro h
    unfold is_valid_decision at hvalid
    rw [if_neg hneg, if_pos h] at hvalid
    exact absurd hvalid (by simp)
  rw [hbridge] at hneg
  push_neg at hneg
  have hsum : (m.fleet.map (fun car =>
      (m.state.inventory_level car : ℚ) + d.restock car)).sum ≤
      (m.max_inventory : ℚ) := not_lt.mp h2
  have step1 : (m.fleet.map (fun car =>
      (transition_fn m d e).state.inventory_level car)).sum ≤
      (m.fleet.map (fun car =>
        m.state.inventory_level car + pyInt (d.restock car))).sum := by
    apply List.sum_le_sum
    intro car hcar
    have hs : 0 ≤ min (pyRound (e.demand car)) (m.state.inventory_level car) :=
      le_min (pyRound_nonneg _ (hdem car hcar)) (hinv car hcar)
    have hr : 0 ≤ pyInt (d.restock car) := pyInt_nonneg _ (hneg car hcar)
    have hi := hinv car hcar
    show max 0 (m.state.inventory_level car + pyInt (d.restock car) -
      min (pyRound (e.demand car)) (m.state.inventory_level car)) ≤
      m.state.inventory_level car + pyInt (d.restock car)
    omega
  have step2 : ((m.fleet.map (fun car =>
      m.state.inventory_level car + pyInt (d.restock car))).sum : ℚ) ≤
      (m.max_inventory : ℚ) := by
    have hcast : ((m.fleet.map (fun car =>
        m.state.inventory_level car + pyInt (d.restock car))).sum : ℚ) =
        (m.fleet.map (fun car =>
          ((m.state.inventory_level car + pyInt (d.restock car) : ℤ) : ℚ))).sum := by
      rw [Int.cast_list_sum, List.map_map]
      rfl
    rw [hcast]
    refine le_trans (List.sum_le_sum ?_) hsum
    intro car hcar
    push_cast
    exact add_le_add_left (pyInt_le_self _ (hneg car hcar)) _
  have step1q : ((m.fleet.map (fun car =>
      (transition_fn m d e).state.inventory_level car)).sum : ℚ) ≤
      ((m.fleet.map (fun car =>
        m.state.inventory_level car + pyInt (d.restock car))).sum : ℚ) := by
    exact_mod_cast step1
  exact_mod_cast le_trans step1q step2

/-- Witness for C4: one car at inventory 10 restocked by 5 under capacity
100 with demand 3 keeps total new inventory within capacity. -/
theorem C4_capacity_invariant_witness :
    ((mkModel ["Car A"] 100 (constState 10 2 0 5)).fleet.map (fun car =>
      (transition_fn (mkModel ["Car A"] 100 (constState 10 2 0 5))
        (constDecision 5 0 0) (constExog 3)).state.inventory_level car)).sum ≤
      (mkModel ["Car A"] 100 (constState 10 2 0 5)).max_inventory :=
  C4_capacity_invariant _ _ _
    (by norm_num [mkModel, constState])
    (by norm_num [mkModel, constState, constExog])
    (by norm_num [is_valid_decision, mkModel, constState, constDecision])

/-! ### Lemmas about the threshold allocation -/

theorem thresholdAlloc_keys (tmin tmax inv : String → ℤ) :
    ∀ (cars : List String) (cap : ℤ),
    (thresholdAlloc tmin tmax inv cars cap).map Prod.fst = cars := by
  intro cars
  induction cars with
  | nil => intro cap; rfl
  | cons car rest ih =>
      intro cap
      by_cases hb : inv car < tmin car
      · simp only [thresholdAlloc, if_pos hb, List.map_cons, ih]
      · simp only [thresholdAlloc, if_neg hb, List.map_cons, ih]

theorem thresholdAlloc_nonneg (tmin tmax inv : String → ℤ)
    (hmm : ∀ c, tmin c ≤ tmax c) :
    ∀ (cars : List String) (cap : ℤ), 0 ≤ cap →
    ∀ p ∈ thresholdAlloc tmin tmax inv cars cap, 0 ≤ p.2 := by
  intro cars
  induction cars with
  | nil =>
      intro cap _ p hp
      simp [thresholdAlloc] at hp
  | cons car rest ih =>
      intro cap hcap p hp
      by_cases hb : inv car < tmin car
      · simp only [thresholdAlloc, if_pos hb, List.mem_cons] at hp
        have htarget : 0 ≤ tmax car - inv car := by
          have := hmm car
          omega
        have hr0 : 0 ≤ min (tmax car - inv car) cap := le_min htarget hcap
        rcases hp with h1 | h2
        · rw [h1]
          exact hr0
        · refine ih (cap - min (tmax car - inv car) cap) ?_ p h2
          have := min_le_right (tmax car - inv car) cap
          omega
      · simp only [thresholdAlloc, if_neg hb, List.mem_cons] at hp
        rcases hp with h1 | h2
        · rw [h1]
        · exact ih cap hcap p h2

theorem fcfs_foldl_append (tmin tmax inv : String → ℤ) :
    ∀ (cars : List String) (cap : ℤ) (acc : List (String × ℤ)),
    (cars.foldl (fcfsStep tmin tmax inv) (acc, cap)).1 =
      acc ++ thresholdAlloc tmin tmax inv cars cap := by
  intro cars
  induction cars with
  | nil =>
      intro cap acc
      simp [thresholdAlloc]
  | cons car rest ih =>
      intro cap acc
      by_cases hb : inv car < tmin car
      · simp only [List.foldl_cons, fcfsStep, if_pos hb, thresholdAlloc, ih,
          List.append_assoc, List.singleton_append]
      · simp only [List.foldl_cons, fcfsStep, if_neg hb, thresholdAlloc, ih,
          List.append_assoc, List.singleton_append]

theorem thresholdAlloc_eq_fcfs (tmin tmax inv : String → ℤ)
    (cars : List String) (cap : ℤ) :
    fcfsRestock tmin tmax inv cars cap = thresholdAlloc tmin tmax inv cars cap := by
  unfold fcfsRestock
  rw [fcfs_foldl_append]
  rfl

theorem winter_theta_le (c : String) :
    winter_theta_min c ≤ winter_theta_max c := by
  unfold winter_theta_min winter_theta_max
  split_ifs <;> norm_num

theorem summer_theta_le (c : String) :
    summer_theta_min c ≤ summer_theta_max c := by
  unfold summer_theta_min summer_theta_max
  split_ifs <;> norm_num

theorem alookup_map_cast (l : List (String × ℤ)) (c : String) :
    alookup (l.map (fun p => (p.1, (p.2 : ℚ)))) c =
      (alookup l c).map (fun z => (z : ℚ)) := by
  induction l with
  | nil => rfl
  | cons p rest ih =>
      by_cases hp : p.1 = c
      · simp only [List.map_cons, alookup, if_pos hp]
        rfl
      · simp only [List.map_cons, alookup, if_neg hp, ih]

/-! ### C7: first-come-first-served allocation of the threshold policy -/

/-- C7 (amended): the threshold policy's restock dict is exactly the
first-come-first-served allocation described by the spec — each car strictly
below its seasonal minimum threshold receives
`min(theta_max − inventory, remaining capacity)`, with remaining capacity
starting at `max_inventory − total inventory` and decremented in the fleet's
enumeration order, every other car receiving 0.  The thresholds are the
hardcoded seasonal tables, so for the scenario fleet {Car A: inventory 3}
with capacity 50 at t = 0 (winter: theta_min 5, theta_max 15) the policy
restocks Car A by exactly 12 — not 7, as no configuration with
theta_max = 10 exists in the code. -/
theorem C7_threshold_fcfs_allocation (m : Model) (s : State) (t : ℕ) :
    ((get_decision m s t).restock =
      (fcfsRestock
        (if t % 12 = 9 ∨ t % 12 = 10 ∨ t % 12 = 11 ∨ t % 12 = 0 ∨ t % 12 = 1
          then winter_theta_min else summer_theta_min)
        (if t % 12 = 9 ∨ t % 12 = 10 ∨ t % 12 = 11 ∨ t % 12 = 0 ∨ t % 12 = 1
          then winter_theta_max else summer_theta_max)
        s.inventory_level m.fleet
        (m.max_inventory -
          (m.fleet.map (fun car => s.inventory_level car)).sum)).map
        (fun p => (p.1, (p.2 : ℚ)))) ∧
    alookup (get_decision c7Model c7Model.state 0).restock "Car A" =
      some 12 := by
  constructor
  · by_cases hw : t % 12 = 9 ∨ t % 12 = 10 ∨ t % 12 = 11 ∨ t % 12 = 0 ∨
        t % 12 = 1
    · simp only [get_decision, decide_eq_true hw, if_true, if_pos hw,
        thresholdAlloc_eq_fcfs]
    · simp only [get_decision, decide_eq_false hw, Bool.false_eq_true,
        if_false, if_neg hw, thresholdAlloc_eq_fcfs]
  · simp [get_decision, thresholdAlloc, c7Model, mkModel, constState,
      alookup, winter_theta_min, winter_theta_max]

/-- C7 (counterexample): for the scenario fleet {Car A: inventory 3} with
capacity 50 at t = 0, the threshold policy restocks Car A by 12 (winter
theta_max 15 minus inventory 3), not by the 7 the claim's scenario states —
no threshold configuration with theta_max = 10 exists in the code. -/
theorem C7_scenario_counterexample :
    alookup (get_decision c7Model c7Model.state 0).restock "Car A" =
      some 12 ∧ (12 : ℚ) ≠ 7 := by
  refine ⟨?_, by norm_num⟩
  simp [get_decision, thresholdAlloc, c7Model, mkModel, constState, alookup,
    winter_theta_min, winter_theta_max]

/-! ### C6: sign and coverage of policy decisions -/

/-- C6 (counterexample): at a state whose total inventory (103) already
exceeds max_inventory (50) and whose competitor price is 0, the threshold
policy returns restock −53 and price −50 for Car A — both negative,
contradicting the claim that both policy variants never return negative
restock or price for any state. -/
theorem C6_negative_restock_and_price :
    alookup (get_decision c6Model c6Model.state 0).restock "Car A" =
      some (-53) ∧
    alookup (get_decision c6Model c6Model.state 0).price "Car A" =
      some (-50) ∧
    (-53 : ℚ) < 0 ∧ (-50 : ℚ) < 0 := by
  refine ⟨?_, ?_, by norm_num, by norm_num⟩ <;>
    simp [get_decision, thresholdAlloc, c6Model, c6State, mkModel, alookup,
      winter_theta_min, winter_theta_max]

/-- C6 (amended): for every state whose total inventory is within
max_inventory, whose fleet consists of cars known to the hardcoded threshold
tables, whose competitor price for the car is at least the flat markdown
(100), and with a non-negative configured discount rate, both policy
variants return a decision with an entry for every fleet car, and the
entries are non-negative: restock, price and discount for the threshold
policy, and restock, price and discount (always 0) for the
forecast-adaptive policy. -/
theorem C6_policy_decision_bounds (m : Model) (s : State) (t : ℕ)
    (theta_min theta_max : String → ℤ) (e : ExogInfo) (c : String)
    (hc : c ∈ m.fleet)
    (hfleet : ∀ x ∈ m.fleet, x = "Car A" ∨ x = "Car B" ∨ x = "Car C")
    (hcap : (m.fleet.map (fun car => s.inventory_level car)).sum ≤
      m.max_inventory)
    (hcp : 100 ≤ s.competitor_price c)
    (hdr : 0 ≤ m.discount_rate) :
    (∃ v, alookup (get_decision m s t).restock c = some v ∧ 0 ≤ v) ∧
    (∃ v, alookup (get_decision m s t).price c = some v ∧ 0 ≤ v) ∧
    (∃ v, alookup (get_decision m s t).discount c = some v ∧ 0 ≤ v) ∧
    (∃ v, alookup (basic_order_up_to_policy m theta_min theta_max e).restock c
      = some v ∧ 0 ≤ v) ∧
    (∃ v, alookup (basic_order_up_to_policy m theta_min theta_max e).price c
      = some v ∧ 0 ≤ v) ∧
    alookup (basic_order_up_to_policy m theta_min theta_max e).discount c =
      some 0 := by
  refine ⟨?_, ?_, ?_, ?_, ?_, ?_⟩
  · -- threshold restock: apply the allocation lemmas
    have hkeys := thresholdAlloc_keys
      (if (decide (t % 12 = 9 ∨ t % 12 = 10 ∨ t % 12 = 11 ∨ t % 12 = 0 ∨
        t % 12 = 1) : Bool) then winter_theta_min else summer_theta_min)
      (if (decide (t % 12 = 9 ∨ t % 12 = 10 ∨ t % 12 = 11 ∨ t % 12 = 0 ∨
        t % 12 = 1) : Bool) then winter_theta_max else summer_theta_max)
      s.inventory_level m.fleet
      (m.max_inventory - (m.fleet.map (fun car => s.inventory_level car)).sum)
    have hsome := alookup_isSome_of_key_mem _ c (by rw [hkeys]; exact hc)
    obtain ⟨r, hr⟩ := Option.isSome_iff_exists.mp hsome
    have hmem := alookup_mem hr
    have hθ : ∀ x,
        (if (decide (t % 12 = 9 ∨ t % 12 = 10 ∨ t % 12 = 11 ∨ t % 12 = 0 ∨
          t % 12 = 1) : Bool) then winter_theta_min else summer_theta_min) x ≤
        (if (decide (t % 12 = 9 ∨ t % 12 = 10 ∨ t % 12 = 11 ∨ t % 12 = 0 ∨
          t % 12 = 1) : Bool) then winter_theta_max else summer_theta_max) x := by
      intro x
      split_ifs
      · exact winter_theta_le x
      · exact summer_theta_le x
    have hr0 : 0 ≤ r :=
      thresholdAlloc_nonneg _ _ _ hθ m.fleet _ (by omega) (c, r) hmem
    refine ⟨(r : ℚ), ?_, by exact_mod_cast hr0⟩
    show alookup ((thresholdAlloc _ _ _ m.fleet _).map
      (fun p => (p.1, (p.2 : ℚ)))) c = some (r : ℚ)
    rw [alookup_map_cast, hr]
    rfl
  · refine ⟨s.competitor_price c -
      (if s.holding_time c > 10 then (100 : ℚ) else 50), ?_, ?_⟩
    · exact alookup_map_self _ m.fleet c hc
    · split_ifs <;> linarith
  · refine ⟨(if s.holding_time c > 30 then m.discount_rate else 0), ?_, ?_⟩
    · exact alookup_map_self _ m.fleet c hc
    · split_ifs
      · exact hdr
      · exact le_refl 0
  · refine ⟨_, alookup_map_self _ m.fleet c hc, le_max_left 0 _⟩
  · refine ⟨_, alookup_map_self _ m.fleet c hc, le_max_left 0 _⟩
  · exact alookup_map_self (fun _ => (0 : ℚ)) m.fleet c hc

/-- Witness for C6 (amended) at a one-car model with inventory 3, capacity
50, competitor price 150: the threshold restock entry for Car A exists and
is non-negative. -/
theorem C6_policy_decision_bounds_witness :
    ∃ v, alookup (get_decision (mkModel ["Car A"] 50 (constState 3 0 150 4))
      (constState 3 0 150 4) 0).restock "Car A" = some v ∧ 0 ≤ v :=
  (C6_policy_decision_bounds (mkModel ["Car A"] 50 (constState 3 0 150 4))
    (constState 3 0 150 4) 0 (fun _ => 0) (fun _ => 10) (constExog 4) "Car A"
    (by norm_num [mkModel])
    (by norm_num [mkModel])
    (by norm_num [mkModel, constState])
    (by norm_num [constState])
    (by norm_num [mkModel])).1

/-! ### C8: formulas of the forecast-adaptive policy -/

/-- C8 (counterexample): with competitor price 0, the forecast-adaptive
policy returns price 0 for Car A (the source floors the price at 0 with
`max(0, competitor_price - 50)`), not the flat `competitor_price − 50 = −50`
the claim states. -/
theorem C8_price_floor_counterexample :
    alookup (basic_order_up_to_policy
      (mkModel ["Car A"] 100 (constState 3 0 0 0)) (fun _ => 0)
      (fun _ => 10) (constExog 4)).price "Car A" = some 0 ∧
    (mkModel ["Car A"] 100 (constState 3 0 0 0)).state.competitor_price
      "Car A" - 50 = -50 ∧
    (0 : ℚ) ≠ -50 := by
  refine ⟨?_, by norm_num [mkModel, constState], by norm_num⟩
  norm_num [basic_order_up_to_policy, alookup, mkModel, constState, constExog,
    max_def, min_def, trend_adjustments]

/-- C8 (amended): per car, the forecast-adaptive policy's restock equals
`max(0, min(theta_max − inventory, trend_factor * (demand + buffer)))` where
the buffer is the integer square root of the tracked demand variance and the
trend factor multiplies the demand-plus-buffer sum (not the demand alone);
the price equals `max(0, competitor_price − 50)` (floored at 0, not the flat
difference); the discount is always 0.  The policy_util variant applies the
same formula to its supplied `demand_forecast` argument. -/
theorem C8_forecast_adaptive_formulas (m : Model)
    (theta_min theta_max : String → ℤ) (e : ExogInfo) (c : String)
    (hc : c ∈ m.fleet) :
    alookup (basic_order_up_to_policy m theta_min theta_max e).restock c =
      some (max 0 (min ((theta_max c : ℚ) - (m.state.inventory_level c : ℚ))
        (trend_adjustments (m.state.market_trends c) *
          (e.demand c + ((Nat.sqrt (m.variance_demand c) : ℤ) : ℚ))))) ∧
    alookup (basic_order_up_to_policy m theta_min theta_max e).price c =
      some (max 0 (m.state.competitor_price c - 50)) ∧
    alookup (basic_order_up_to_policy m theta_min theta_max e).discount c =
      some 0 ∧
    (∀ (inventory : List (String × ℤ)) (forecast tf : String → ℚ)
      (var : String → ℕ),
      alookup (basic_order_up_to_policy_util inventory theta_min theta_max
        forecast tf var) c =
      (alookup inventory c).map (fun level : ℤ =>
        max 0 (min ((theta_max c : ℚ) - (level : ℚ))
          (tf c * (forecast c + ((Nat.sqrt (var c) : ℤ) : ℚ)))))) := by
  refine ⟨?_, ?_, ?_, ?_⟩
  · rw [show (basic_order_up_to_policy m theta_min theta_max e).restock =
      m.fleet.map (fun car =>
        (car, max 0 (min ((theta_max car : ℚ) -
          (m.state.inventory_level car : ℚ))
        (trend_adjustments (m.state.market_trends car) *
          (e.demand car + ((Nat.sqrt (m.variance_demand car) : ℤ) : ℚ))))))
      from rfl]
    rw [alookup_map_self _ m.fleet c hc]
  · exact alookup_map_self
      (fun car => max 0 (m.state.competitor_price car - 50)) m.fleet c hc
  · exact alookup_map_self (fun _ => (0 : ℚ)) m.fleet c hc
  · intro inventory forecast tf var
    exact alookup_map_pair
      (fun car level => max 0 (min ((theta_max car : ℚ) - ((level : ℤ) : ℚ))
        (tf car * (forecast car + ((Nat.sqrt (var car) : ℤ) : ℚ)))))
      inventory c

/-- Witness for C8 (amended): one car, competitor price 200 — the price
entry is `max(0, 200 − 50)`. -/
theorem C8_forecast_adaptive_formulas_witness :
    alookup (basic_order_up_to_policy
      (mkModel ["Car A"] 100 (constState 3 0 200 4)) (fun _ => 0)
      (fun _ => 10) (constExog 4)).price "Car A" =
      some (max 0 ((mkModel ["Car A"] 100
        (constState 3 0 200 4)).state.competitor_price "Car A" - 50)) :=
  (C8_forecast_adaptive_formulas (mkModel ["Car A"] 100 (constState 3 0 200 4))
    (fun _ => 0) (fun _ => 10) (constExog 4) "Car A"
    (by norm_num [mkModel])).2.1

/-! ### Lemmas about the exog_info_fn loop -/

theorem exogFold_demand_nonneg (fleet : List String) (forecast cp : String → ℚ)
    (rowOf : String → Option TrendRow) (drawTrend drawFb : ℕ → String → ℚ) :
    ∀ (todo : List String) (i : ℕ)
      (acc : List (String × ℚ) × List (String × ℚ) × List (String × String)),
    (∀ p ∈ acc.1, 0 ≤ p.2) →
    ∀ p ∈ (exogFold fleet forecast cp rowOf drawTrend drawFb todo i acc).1,
      0 ≤ p.2 := by
  intro todo
  induction todo with
  | nil =>
      intro i acc hacc p hp
      exact hacc p hp
  | cons car rest ih =>
      intro i acc hacc p hp
      obtain ⟨demand, cps, trends⟩ := acc
      cases hrow : rowOf car with
      | some row =>
          simp only [exogFold, hrow] at hp
          refine ih (i + 1) _ ?_ p hp
          intro q hq
          rcases List.mem_map.mp hq with ⟨x, _, hx⟩
          rw [← hx]
          exact le_max_left 0 _
      | none =>
          simp only [exogFold, hrow] at hp
          refine ih (i + 1) _ ?_ p hp
          exact ainsert_values _ demand car _ hacc (le_max_left 0 _)

theorem exogFold_demand_isSome (fleet : List String) (forecast cp : String → ℚ)
    (rowOf : String → Option TrendRow) (drawTrend drawFb : ℕ → String → ℚ)
    (c : String) (hcf : c ∈ fleet) :
    ∀ (todo : List String) (i : ℕ)
      (acc : List (String × ℚ) × List (String × ℚ) × List (String × String)),
    (alookup acc.1 c).isSome →
    (alookup (exogFold fleet forecast cp rowOf drawTrend drawFb
      todo i acc).1 c).isSome := by
  intro todo
  induction todo with
  | nil =>
      intro i acc h
      exact h
  | cons car rest ih =>
      intro i acc h
      obtain ⟨demand, cps, trends⟩ := acc
      cases hrow : rowOf car with
      | some row =>
          simp only [exogFold, hrow]
          apply ih (i + 1)
          show (alookup (fleet.map (fun x =>
            (x, max 0 (drawTrend i x)))) c).isSome
          rw [alookup_map_self _ fleet c hcf]
          rfl
      | none =>
          simp only [exogFold, hrow]
          apply ih (i + 1)
          show (alookup (ainsert demand car
            (max 0 (forecast car + drawFb i car))) c).isSome
          by_cases hcc : c = car
          · subst hcc
            rw [alookup_ainsert_self]
            rfl
          · rw [alookup_ainsert_ne _ _ _ _ hcc]
            exact h

theorem exogFold_demand_covers (fleet : List String) (forecast cp : String → ℚ)
    (rowOf : String → Option TrendRow) (drawTrend drawFb : ℕ → String → ℚ)
    (c : String) (hcf : c ∈ fleet) :
    ∀ (todo : List String) (i : ℕ)
      (acc : List (String × ℚ) × List (String × ℚ) × List (String × String)),
    c ∈ todo →
    (alookup (exogFold fleet forecast cp rowOf drawTrend drawFb
      todo i acc).1 c).isSome := by
  intro todo
  induction todo with
  | nil =>
      intro i acc h
      cases h
  | cons car rest ih =>
      intro i acc hmem
      obtain ⟨demand, cps, trends⟩ := acc
      by_cases hcc : c = car
      · subst hcc
        cases hrow : rowOf c with
        | some row =>
            simp only [exogFold, hrow]
            apply exogFold_demand_isSome fleet forecast cp rowOf drawTrend
              drawFb c hcf rest (i + 1)
            show (alookup (fleet.map (fun x =>
              (x, max 0 (drawTrend i x)))) c).isSome
            rw [alookup_map_self _ fleet c hcf]
            rfl
        | none =>
            simp only [exogFold, hrow]
            apply exogFold_demand_isSome fleet forecast cp rowOf drawTrend
              drawFb c hcf rest (i + 1)
            show (alookup (ainsert demand c
              (max 0 (forecast c + drawFb i c))) c).isSome
            rw [alookup_ainsert_self]
            rfl
      · have hrest : c ∈ rest := by
          rcases List.mem_cons.mp hmem with h1 | h2
          · exact absurd h1 hcc
          · exact h2
        cases hrow : rowOf car with
        | some row =>
            simp only [exogFold, hrow]
            exact ih (i + 1) _ hrest
        | none =>
            simp only [exogFold, hrow]
            exact ih (i + 1) _ hrest

/-! ### C9: demand bounds of exog_info_fn -/

/-- C9: for every state with a non-negative demand forecast, every present
market-trends table, and arbitrary random draws, every tracked car's demand
value returned by exog_info_fn satisfies
`0 ≤ demand ≤ 2 * demand_forecast[car]`: each draw is floored at 0 by
`max(0, ·)` and finally capped at twice the forecast. -/
theorem C9_demand_bounds (m : Model)
    (df : ℕ → String → Option TrendRow) (hdf : m.market_trends_df = some df)
    (drawTrend drawFb : ℕ → String → ℚ)
    (hf : ∀ x ∈ m.fleet, 0 ≤ m.state.demand_forecast x)
    (car : String) (hcar : car ∈ m.fleet) (e : ExogDicts)
    (hok : exog_info_fn m drawTrend drawFb = Except.ok e) :
    ∃ v, alookup e.demand car = some v ∧ 0 ≤ v ∧
      v ≤ 2 * m.state.demand_forecast car := by
  simp only [exog_info_fn, hdf, Except.ok.injEq] at hok
  subst hok
  have hbase := exogFold_demand_covers m.fleet m.state.demand_forecast
    m.state.competitor_price (df (m.t % 12 + 1)) drawTrend drawFb car hcar
    m.fleet 0 ([], [], []) hcar
  obtain ⟨v0, hv0⟩ := Option.isSome_iff_exists.mp hbase
  have hv0nonneg : 0 ≤ v0 :=
    exogFold_demand_nonneg m.fleet m.state.demand_forecast
      m.state.competitor_price (df (m.t % 12 + 1)) drawTrend drawFb m.fleet 0
      ([], [], []) (by intro p hp; cases hp) (car, v0) (alookup_mem hv0)
  refine ⟨min v0 ((alookup (m.fleet.map (fun c =>
    (c, 2 * m.state.demand_forecast c))) car).getD v0), ?_, ?_, ?_⟩
  · rw [alookup_map_pair (fun s v => min v ((alookup (m.fleet.map (fun c =>
      (c, 2 * m.state.demand_forecast c))) s).getD v)), hv0]
    rfl
  · rw [alookup_map_self _ m.fleet car hcar]
    exact le_min hv0nonneg (by
      rw [Option.getD_some]
      have := hf car hcar
      linarith)
  · rw [alookup_map_self _ m.fleet car hcar, Option.getD_some]
    exact min_le_right _ _

/-- Witness for C9: the row-less table model with forecast 10 and zero
draws yields demand exactly 10 for Car A, within [0, 20]. -/
theorem C9_demand_bounds_witness :
    ∃ v, alookup (ExogDicts.mk [("Car A", 10)] [("Car A", 0)]
      [("Car A", "stable")]).demand "Car A" = some v ∧ 0 ≤ v ∧
      v ≤ 2 * c9Model.state.demand_forecast "Car A" :=
  C9_demand_bounds c9Model c9Table rfl (fun _ _ => 0) (fun _ _ => 0)
    (by norm_num [c9Model, mkModel, constState]) "Car A"
    (by norm_num [c9Model, mkModel])
    (ExogDicts.mk [("Car A", 10)] [("Car A", 0)] [("Car A", "stable")])
    (by simp [exog_info_fn, c9Model, c9Table, mkModel, constState, exogFold,
      ainsert, alookup, max_def, min_def])

end CarDealer
